import Mathlib

/-!
Verification of the playback state machine of the Python-Music-Server
repository, a shallow embedding of `src/player.py` (class `PygamePlayer`)
together with the snapshot format of `current_state` and the locking
structure of the class.

Modelling conventions:
* A track descriptor keeps the two dictionary keys the player reads,
  `path` and `name` (`duration` is never read by any player operation).
* The pygame mixer (`pygame.mixer.music`) is a single global resource; we
  model the observable part: which path is loaded, whether output is busy,
  and the volume (`set_volume`/`get_volume` are pass-throughs).
* Filesystem and audio-backend outcomes are an environment `FS` of
  predicates on paths: `fileExists` (`os.path.exists`), `removeOk`
  (`os.remove` succeeds), `mmapOk` (open + `mmap` + `mixer.music.load`
  of the mapped file succeed), `loadOk` (the fallback
  `pygame.mixer.music.load(path)` succeeds).
* `random.choice(lst)` is modelled by an oracle natural number `r`, the
  chosen element being `lst[r % len(lst)]`.
* `_preload_next_track` only spawns a daemon thread and returns; the
  synchronous semantics of an operation therefore leaves the preload
  fields unchanged.  `_next_index`/`_next_file`/`_next_mmap` are set and
  cleared together in the source, so they are modelled as one field
  `nextPreload : Option Nat` (`some i` = index `i` preloaded with its
  resources ready).
* Python exceptions leave the object mutated up to the raise point, so
  every fallible operation returns `PlayerState × Option PyErr`
  (`none` = normal return).
* Indices are natural numbers; Python negative-index semantics are
  outside the model (every claim below is settled on non-negative
  inputs).
-/

/-- A track descriptor: the `'path'` and `'name'` keys of the dictionaries
in `self.track_list` (the only keys `PygamePlayer` reads). -/
structure Track where
  path : String
  name : String
deriving DecidableEq, Repr

/-- Observable state of the global `pygame.mixer.music` binding. -/
structure MixerState where
  loaded : Option String
  busy : Bool
  volume : Rat
deriving DecidableEq, Repr

/-- Exceptions that can escape a `PygamePlayer` method. -/
inductive PyErr where
  | indexError
  | fileNotFound
  | osError
  | zeroDivision
deriving DecidableEq, Repr

/-- The mutable attributes of a `PygamePlayer` instance
(`src/player.py`, `__init__`, lines 37-70), plus the mixer it drives. -/
structure PlayerState where
  track_list : List Track
  current_index : Nat
  paused : Bool
  shuffle_on : Bool
  /-- Keys of `self._cache` in dictionary insertion order. -/
  cache : List String
  /-- Source `self.last_played`. -/
  last_played : List Nat
  /-- Source `self._next_index` when `_next_file`/`_next_mmap` are present. -/
  nextPreload : Option Nat
  mixer : MixerState
deriving DecidableEq, Repr

/-- Source `self._max_cache_size` (line 51). -/
def max_cache_size : Nat := 5

/-- Source `self.max_history` (line 53). -/
def max_history : Nat := 10

/-- Environment: outcomes of filesystem and audio-backend calls per path. -/
structure FS where
  fileExists : String → Bool
  removeOk : String → Bool
  mmapOk : String → Bool
  loadOk : String → Bool

/-- Source `self._cache[current_path] = True` (line 191): a Python dict keeps an
existing key at its position and appends a new key. -/
def cacheInsert (k : String) (c : List String) : List String :=
  if k ∈ c then c else c ++ [k]

/-- Method `_manage_cache` (lines 278-292): when the cache exceeds
`_max_cache_size`, keep only the last `max 2 (5 // 2) = 2` keys
(`keys_to_remove = list(keys)[:-keep_count]`). -/
def manage_cache (s : PlayerState) : PlayerState :=
  if max_cache_size < s.cache.length then
    { s with cache := s.cache.drop (s.cache.length - 2) }
  else s

/-- Method `load_track` (lines 174-217).  Branches, in source order:
`_use_preloaded_track` (lines 149-172: succeeds iff `_next_index ==
self.current_index` and the preload resources exist; it then consumes
them and skips the whole loading block — note the mixer is not reloaded
on this path); otherwise stop the mixer if busy (183-184), `_manage_cache`
(187), read `track_list[index]['path']` (190) — an out-of-range `index`
raises `IndexError` here, which the `except` block at 216-217 re-raises
while evaluating `track_list[index]['name']` in its logging f-string;
mark the path in the cache (191); try the mmap load (194-205), falling
back to a standard `pygame.mixer.music.load(path)` (206-211); any load
failure reaches the `except` block, which logs and swallows it (the
function returns normally).  `_preload_next_track` (214) only spawns a
thread. -/
def load_track (fs : FS) (index : Nat) (s : PlayerState) :
    PlayerState × Option PyErr :=
  if s.nextPreload = some s.current_index then
    ({ s with nextPreload := none }, none)
  else
    let m := if s.mixer.busy then { s.mixer with busy := false } else s.mixer
    let c := if max_cache_size < s.cache.length then
        s.cache.drop (s.cache.length - 2)
      else s.cache
    if index < s.track_list.length then
      let path := (s.track_list.getD index ⟨"", ""⟩).path
      let c2 := cacheInsert path c
      if fs.mmapOk path then
        ({ s with mixer := { m with loaded := some path }, cache := c2 }, none)
      else if fs.loadOk path then
        ({ s with mixer := { m with loaded := some path }, cache := c2 }, none)
      else
        ({ s with mixer := m, cache := c2 }, none)
    else
      ({ s with mixer := m, cache := c }, some PyErr.indexError)

/-- Method `start_track` (lines 306-315): `pygame.mixer.music.play()`, clear
`paused`, then append `current_index` to `last_played` only if it is
absent, popping the oldest entry when the bound is exceeded. -/
def start_track (s : PlayerState) : PlayerState :=
  let s1 := { s with mixer := { s.mixer with busy := true }, paused := false }
  if s.current_index ∈ s.last_played then s1
  else
    let lp := s.last_played ++ [s.current_index]
    if max_history < lp.length then { s1 with last_played := lp.tail }
    else { s1 with last_played := lp }

/-- The `self.load_track(self.current_index); self.start_track()` pair
used by `play`, `next`, `back`, `play_track` and `delete_track`; an
exception from `load_track` propagates and skips `start_track`. -/
def loadAndStart (fs : FS) (s : PlayerState) : PlayerState × Option PyErr :=
  match load_track fs s.current_index s with
  | (s1, none) => (start_track s1, none)
  | (s1, some e) => (s1, some e)

/-- Method `play` (lines 317-333).  `resumeBusy` is the oracle for whether the
backend reports busy after `unpause` (line 323). -/
def play (fs : FS) (resumeBusy : Bool) (s : PlayerState) :
    PlayerState × Option PyErr :=
  if s.paused then
    let s1 := { s with mixer := { s.mixer with busy := resumeBusy } }
    if resumeBusy then ({ s1 with paused := false }, none)
    else loadAndStart fs s1
  else loadAndStart fs s

/-- Method `pause` (lines 335-344): toggle; unpause resumes output, pause halts
it (output busyness modelled accordingly). -/
def pause (s : PlayerState) : PlayerState :=
  if s.paused then
    { s with paused := false, mixer := { s.mixer with busy := true } }
  else
    { s with paused := true, mixer := { s.mixer with busy := false } }

/-- Call `random.choice(l)` under oracle `r`: the element at `r % len(l)`. -/
def choice (r : Nat) (l : List Nat) : Nat := l.getD (r % l.length) 0

/-- Slice `self.last_played[-min(len(self.last_played), 5):]` (line 351): the
last five (or fewer) entries of the history. -/
def window5 (lp : List Nat) : List Nat := lp.drop (lp.length - 5)

/-- The shuffle candidate set of `next` (lines 350-351): all valid
indices not in the last-five history window. -/
def candidates (s : PlayerState) : List Nat :=
  (List.range s.track_list.length).filter
    (fun i => decide (i ∉ window5 s.last_played))

/-- Method `next` (lines 346-370).  With shuffle on and more than one track:
pick from `candidates`, falling back to all indices except
`current_index` when that is empty (354-355), with a final dead fallback
to sequential advance (360-361).  Otherwise sequential `(i+1) % len`
(363), a `ZeroDivisionError` on an empty catalog.  Then load and start. -/
def next (fs : FS) (r : Nat) (s : PlayerState) : PlayerState × Option PyErr :=
  if s.shuffle_on = true ∧ 1 < s.track_list.length then
    let avail := candidates s
    let avail2 :=
      if avail.isEmpty then
        (List.range s.track_list.length).filter
          (fun i => decide (i ≠ s.current_index))
      else avail
    if avail2.isEmpty then
      loadAndStart fs
        { s with current_index := (s.current_index + 1) % s.track_list.length }
    else
      loadAndStart fs { s with current_index := choice r avail2 }
  else if s.track_list.length = 0 then (s, some PyErr.zeroDivision)
  else
    loadAndStart fs
      { s with current_index := (s.current_index + 1) % s.track_list.length }

/-- Method `back` (lines 372-378): `(current_index - 1) % len` with Python
semantics for the possibly negative dividend, i.e.
`(current_index + len - 1) % len`; `ZeroDivisionError` on an empty
catalog. -/
def back (fs : FS) (s : PlayerState) : PlayerState × Option PyErr :=
  if s.track_list.length = 0 then (s, some PyErr.zeroDivision)
  else
    loadAndStart fs
      { s with current_index :=
          (s.current_index + s.track_list.length - 1) % s.track_list.length }

/-- Method `play_track` (lines 380-386): sets `current_index := index` with no
bounds check, then loads and starts. -/
def play_track (fs : FS) (index : Nat) (s : PlayerState) :
    PlayerState × Option PyErr :=
  loadAndStart fs { s with current_index := index }

/-- Method `set_volume` (lines 388-390): pass-through to the mixer. -/
def set_volume (v : Rat) (s : PlayerState) : PlayerState :=
  { s with mixer := { s.mixer with volume := v } }

/-- Method `toggle_shuffle` (lines 400-404). -/
def toggle_shuffle (s : PlayerState) : PlayerState :=
  { s with shuffle_on := !s.shuffle_on }

/-- Method `delete_track` (lines 406-434): bounds check (413-414), existence
check (416-417); if the current track is deleted and others remain,
advance to `(index+1) % len` and load+start it, else stop and set
`paused` (420-427); `os.remove` (428) — a failure is logged and
re-raised with the catalog untouched; `del track_list[index]` (429);
reset `current_index` to 0 when it falls past the end (430-431). -/
def delete_track (fs : FS) (index : Nat) (s : PlayerState) :
    PlayerState × Option PyErr :=
  if index < s.track_list.length then
    let song := s.track_list.getD index ⟨"", ""⟩
    if fs.fileExists song.path then
      let step : PlayerState × Option PyErr :=
        if index = s.current_index then
          if 1 < s.track_list.length then
            loadAndStart fs
              { s with current_index := (index + 1) % s.track_list.length }
          else
            ({ s with paused := true,
                      mixer := { s.mixer with busy := false } }, none)
        else (s, none)
      -- an exception in the replacement load propagates (the source's
      -- `except` block re-raises); otherwise remove and unlink
      if step.2 = none then
        if fs.removeOk song.path then
          let s2 : PlayerState := { step.1 with
                      track_list := step.1.track_list.eraseIdx index }
          if s2.track_list.length ≤ s2.current_index then
            ({ s2 with current_index := 0 }, none)
          else (s2, none)
        else (step.1, some PyErr.osError)
      else step
    else (s, some PyErr.fileNotFound)
  else (s, some PyErr.indexError)

/-- Values appearing in the `current_state` dictionary. -/
inductive PyVal where
  | int (n : Int)
  | rat (q : Rat)
  | bool (b : Bool)
  | str (s : String)
deriving DecidableEq, Repr

/-- Method `current_state` (lines 436-449): the snapshot dictionary, as a
key-value list in the source's literal order. -/
def current_state (s : PlayerState) : List (String × PyVal) :=
  [("current_index", PyVal.int s.current_index),
   ("volume", PyVal.rat s.mixer.volume),
   ("paused", PyVal.bool s.paused),
   ("shuffle", PyVal.bool s.shuffle_on),
   ("cache_size", PyVal.int s.cache.length)]

/-- The public state-machine operations of `PygamePlayer`, with their
oracles (`resumeBusy` for `play`, `r` for the random choice in `next`). -/
inductive Op where
  | play (resumeBusy : Bool)
  | pause
  | next (r : Nat)
  | back
  | play_track (index : Nat)
  | toggle_shuffle
  | delete_track (index : Nat)
  | set_volume (v : Rat)

/-- Run one operation. -/
def runOp (fs : FS) : Op → PlayerState → PlayerState × Option PyErr
  | Op.play b, s => play fs b s
  | Op.pause, s => (pause s, none)
  | Op.next r, s => next fs r s
  | Op.back, s => back fs s
  | Op.play_track i, s => play_track fs i s
  | Op.toggle_shuffle, s => (toggle_shuffle s, none)
  | Op.delete_track i, s => delete_track fs i s
  | Op.set_volume v, s => (set_volume v s, none)

/-! ### Locking structure

`PygamePlayer.__init__` creates exactly one lock attribute,
`self._preload_lock = threading.RLock()` (line 67).  The lists below
over-approximate, per method, the locks any execution of that method may
acquire in the calling thread, read off the `with self._preload_lock:`
statements of the source (`_cleanup_resources` line 100,
`_use_preloaded_track` line 151, `_do_preload_next_track` line 231 —
the latter runs in a spawned daemon thread, so methods that merely call
`_preload_next_track` acquire nothing themselves). -/

/-- The lock objects owned by a `PygamePlayer` instance. -/
inductive PyLock where
  | preloadLock
deriving DecidableEq

/-- Method `_cleanup_resources` acquires `_preload_lock` (line 100). -/
def cleanup_resources_locks : List PyLock := [PyLock.preloadLock]

/-- Method `_use_preloaded_track` acquires `_preload_lock` (line 151) and may
nest `_cleanup_resources` (line 158). -/
def use_preloaded_track_locks : List PyLock :=
  PyLock.preloadLock :: cleanup_resources_locks

/-- Method `_manage_cache` (lines 278-292) acquires no lock. -/
def manage_cache_locks : List PyLock := []

/-- Method `load_track` may reach `_use_preloaded_track`, `_cleanup_resources`
and `_manage_cache`; it acquires no lock directly. -/
def load_track_locks : List PyLock :=
  use_preloaded_track_locks ++ cleanup_resources_locks ++ manage_cache_locks

/-- Method `start_track` (lines 306-315) acquires no lock. -/
def start_track_locks : List PyLock := []

/-- Method `play` (lines 317-333): locks only via `load_track`. -/
def play_locks : List PyLock := load_track_locks ++ start_track_locks

/-- Method `pause` (lines 335-344) acquires no lock. -/
def pause_locks : List PyLock := []

/-- Method `next` (lines 346-370): locks only via `load_track`. -/
def next_locks : List PyLock := load_track_locks ++ start_track_locks

/-- Method `back` (lines 372-378): locks only via `load_track`. -/
def back_locks : List PyLock := load_track_locks ++ start_track_locks

/-- Method `play_track` (lines 380-386): locks only via `load_track`. -/
def play_track_locks : List PyLock := load_track_locks ++ start_track_locks

/-- Method `toggle_shuffle` (lines 400-404): only spawns the preload thread. -/
def toggle_shuffle_locks : List PyLock := []

/-- Method `set_volume` (lines 388-390) acquires no lock. -/
def set_volume_locks : List PyLock := []

/-- Method `delete_track` (lines 406-434): locks only via `load_track`. -/
def delete_track_locks : List PyLock := load_track_locks ++ start_track_locks

/-- Method `current_state` (lines 436-449) acquires no lock. -/
def current_state_locks : List PyLock := []

/-- The lock lists of the eight state-mutating operations. -/
def mutating_op_locks : List (List PyLock) :=
  [play_locks, pause_locks, next_locks, back_locks, play_track_locks,
   delete_track_locks, toggle_shuffle_locks, set_volume_locks]

/-! ### Concrete sample data -/

/-- Environment in which every path exists, is removable and loads. -/
def fs0 : FS := ⟨fun _ => true, fun _ => true, fun _ => true, fun _ => true⟩

/-- Environment in which every path is missing and fails to load. -/
def fsNone : FS := ⟨fun _ => false, fun _ => false, fun _ => false, fun _ => false⟩

/-- A three-track player right after construction (first track loaded). -/
def s3 : PlayerState :=
  { track_list := [⟨"pa", "a"⟩, ⟨"pb", "b"⟩, ⟨"pc", "c"⟩],
    current_index := 0, paused := false, shuffle_on := false,
    cache := ["pa"], last_played := [], nextPreload := none,
    mixer := { loaded := some "pa", busy := false, volume := 1/2 } }

/-- A four-track player currently on index 2 (the track named `c`). -/
def s4 : PlayerState :=
  { track_list := [⟨"pa", "a"⟩, ⟨"pb", "b"⟩, ⟨"pc", "c"⟩, ⟨"pd", "d"⟩],
    current_index := 2, paused := false, shuffle_on := false,
    cache := ["pc"], last_played := [2], nextPreload := none,
    mixer := { loaded := some "pc", busy := true, volume := 1/2 } }

/-- A one-track player. -/
def s1t : PlayerState :=
  { track_list := [⟨"pa", "a"⟩],
    current_index := 0, paused := false, shuffle_on := false,
    cache := ["pa"], last_played := [0], nextPreload := none,
    mixer := { loaded := some "pa", busy := true, volume := 1/2 } }

/-- A six-track player with shuffle on and empty history. -/
def s6 : PlayerState :=
  { track_list := [⟨"p0", "t0"⟩, ⟨"p1", "t1"⟩, ⟨"p2", "t2"⟩,
                   ⟨"p3", "t3"⟩, ⟨"p4", "t4"⟩, ⟨"p5", "t5"⟩],
    current_index := 0, paused := false, shuffle_on := true,
    cache := [], last_played := [], nextPreload := none,
    mixer := { loaded := some "p0", busy := false, volume := 1/2 } }

/-- Apply `next` once per oracle in the list, left to right. -/
def runNexts (fs : FS) (rs : List Nat) (s : PlayerState) : PlayerState :=
  rs.foldl (fun t r => (next fs r t).1) s

/-- Apply `next` `k` times, the `i`-th call using oracle `rs i`. -/
def nextN (fs : FS) (rs : Nat → Nat) : Nat → PlayerState → PlayerState
  | 0, s => s
  | Nat.succ k, s => nextN fs (fun i => rs (i + 1)) k (next fs (rs 0) s).1

/-- Oracles for seven consecutive shuffle `next` calls on `s6`, choosing
the indices 1, 2, 3, 4, 5, 0, 1 in turn. -/
def rs7 : List Nat := [1, 1, 1, 1, 1, 0, 0]

/-! ## Claims -/

/-- C1: the claim that every operation preserves
`0 ≤ current_index < len(catalog)` on a non-empty catalog fails:
`play_track` performs no bounds check, so `play_track(5)` on a
three-track catalog leaves `current_index = 5` with the catalog still of
length 3, i.e. `length ≤ current_index` afterwards. -/
theorem c1_play_track_breaks_index_invariant :
    (runOp fs0 (Op.play_track 5) s3).1.current_index = 5 ∧
    (runOp fs0 (Op.play_track 5) s3).1.track_list.length = 3 ∧
    (runOp fs0 (Op.play_track 5) s3).1.track_list.length ≤
      (runOp fs0 (Op.play_track 5) s3).1.current_index := by decide

/-- C2: deleting a track at an index below `current_index` does not
decrement `current_index`: on the four-track catalog `s4` with
`current_index = 2` (track `c` loaded and playing), `delete_track 0`
returns without error, leaves `current_index = 2` — which now names the
track `d`, formerly at index 3 — while the mixer still has track `c`
loaded. -/
theorem c2_delete_lower_does_not_decrement :
    (runOp fs0 (Op.delete_track 0) s4).2 = none ∧
    s4.current_index = 2 ∧
    (runOp fs0 (Op.delete_track 0) s4).1.current_index = 2 ∧
    (s4.track_list.getD 2 ⟨"", ""⟩).name = "c" ∧
    ((runOp fs0 (Op.delete_track 0) s4).1.track_list.getD 2 ⟨"", ""⟩).name = "d" ∧
    (runOp fs0 (Op.delete_track 0) s4).1.mixer.loaded = some "pc" := by decide

/-- C3: `play_track` with an out-of-range index is not rejected before
mutation: on the three-track `s3`, `play_track 5` first sets
`current_index := 5`; the `IndexError` that reaches the caller escapes
only from inside `load_track`, after the mutation, leaving
`current_index = 5` (it was 0). -/
theorem c3_play_track_mutates_before_raising :
    (runOp fs0 (Op.play_track 5) s3).2 = some PyErr.indexError ∧
    s3.current_index = 0 ∧
    (runOp fs0 (Op.play_track 5) s3).1.current_index = 5 := by decide

/-- C4: loading a missing/corrupt file does not re-raise to the caller:
in the environment `fsNone`, where no file can be opened or loaded,
`load_track` at the valid index 1 returns normally (`none` error — the
exception was logged and swallowed), though `current_index` is indeed
left unchanged. -/
theorem c4_load_failure_not_reraised :
    (load_track fsNone 1 s3).2 = none ∧
    (load_track fsNone 1 s3).1.current_index = s3.current_index := by decide

/-- C7: with shuffle on and a catalog of size 6, an index can repeat
within 5 consecutive `next()` calls without the candidate set being
exhausted: after the oracle-driven calls choosing 1, 2, 3, 4, 5, 0, the
seventh and eighth calls both select index 1 — `start_track` does not
refresh the recency of index 1, which sits in `last_played` outside the
last-five window — while the candidate set before each of those calls is
the non-empty `[1]`. -/
theorem c7_shuffle_repeat_within_five :
    (runNexts fs0 rs7 s6).current_index = 1 ∧
    (runNexts fs0 (rs7 ++ [0]) s6).current_index = 1 ∧
    candidates (runNexts fs0 (rs7.take 6) s6) = [1] ∧
    candidates (runNexts fs0 rs7 s6) = [1] := by decide

/-- C8: the snapshot returned by `current_state` carries neither a
`playing` field nor the current track's display name. -/
theorem c8_snapshot_lacks_playing_and_name :
    ((current_state s3).map Prod.fst).contains "playing" = false ∧
    ((current_state s3).map Prod.fst).contains "name" = false := by decide

/-- C8 (amended): `current_state` returns exactly the fields
`current_index`, `volume`, `paused`, `shuffle` and `cache_size`; it has
no `playing` entry and no display-name entry. -/
theorem c8_snapshot_fields (s : PlayerState) :
    (current_state s).map Prod.fst =
      ["current_index", "volume", "paused", "shuffle", "cache_size"] ∧
    List.lookup "current_index" (current_state s) =
      some (PyVal.int s.current_index) ∧
    List.lookup "volume" (current_state s) = some (PyVal.rat s.mixer.volume) ∧
    List.lookup "paused" (current_state s) = some (PyVal.bool s.paused) ∧
    List.lookup "shuffle" (current_state s) = some (PyVal.bool s.shuffle_on) ∧
    List.lookup "playing" (current_state s) = none ∧
    List.lookup "name" (current_state s) = none := by
  exact ⟨rfl, rfl, rfl, rfl, rfl, rfl, rfl⟩

/-- C9: there is no mutex that every state-mutating operation acquires:
`PyLock` enumerates every lock object the instance owns (only the
preload `RLock`), and even that lock is not acquired by all mutating
operations — `pause` and the snapshot read `current_state` acquire no
lock at all. -/
theorem c9_no_common_mutex :
    pause_locks = [] ∧
    current_state_locks = [] ∧
    (mutating_op_locks.all (fun l => decide (PyLock.preloadLock ∈ l))) = false := by
  decide

/-- C9 (amended): the only lock a `PygamePlayer` method ever acquires is
the preload `RLock` `_preload_lock`, reached through the resource
helpers; `pause`, `toggle_shuffle`, `set_volume`, `start_track` and the
snapshot read `current_state` acquire no lock, so state-mutating
operations and snapshot reads are not serialized by the Player. -/
theorem c9_only_preload_lock :
    (mutating_op_locks.all
      (fun l => l.all (fun m => decide (m = PyLock.preloadLock)))) = true ∧
    pause_locks = [] ∧ toggle_shuffle_locks = [] ∧ set_volume_locks = [] ∧
    start_track_locks = [] ∧ current_state_locks = [] := by decide

/-- Method `load_track` never touches `current_index`, the catalog, the pause
and shuffle flags, or the play history. -/
theorem load_track_fields (fs : FS) (i : Nat) (s : PlayerState) :
    (load_track fs i s).1.current_index = s.current_index ∧
    (load_track fs i s).1.track_list = s.track_list ∧
    (load_track fs i s).1.paused = s.paused ∧
    (load_track fs i s).1.shuffle_on = s.shuffle_on ∧
    (load_track fs i s).1.last_played = s.last_played := by
  unfold load_track
  dsimp only
  split_ifs <;> exact ⟨rfl, rfl, rfl, rfl, rfl⟩

/-- Method `start_track` never touches `current_index`, the catalog, or the
shuffle flag. -/
theorem start_track_fields (s : PlayerState) :
    (start_track s).current_index = s.current_index ∧
    (start_track s).track_list = s.track_list ∧
    (start_track s).shuffle_on = s.shuffle_on := by
  unfold start_track
  dsimp only
  split_ifs <;> exact ⟨rfl, rfl, rfl⟩

/-- The load-and-start pair never touches `current_index`, the catalog,
or the shuffle flag. -/
theorem loadAndStart_fields (fs : FS) (s : PlayerState) :
    (loadAndStart fs s).1.current_index = s.current_index ∧
    (loadAndStart fs s).1.track_list = s.track_list ∧
    (loadAndStart fs s).1.shuffle_on = s.shuffle_on := by
  unfold loadAndStart
  rcases h : load_track fs s.current_index s with ⟨s1, e⟩
  have hf := load_track_fields fs s.current_index s
  rw [h] at hf
  cases e <;> simp_all [start_track_fields]

/-- C4 (amended): `load_track` at a valid index whose file can be
neither memory-mapped nor loaded by the fallback logs the failure and
swallows it — no exception reaches the caller — and leaves
`current_index`, the catalog, and the pause and shuffle flags at their
previous values. -/
theorem c4_load_failure_swallowed (fs : FS) (s : PlayerState) (i : Nat)
    (hi : i < s.track_list.length)
    (hm : fs.mmapOk ((s.track_list.getD i ⟨"", ""⟩).path) = false)
    (hl : fs.loadOk ((s.track_list.getD i ⟨"", ""⟩).path) = false) :
    (load_track fs i s).2 = none ∧
    (load_track fs i s).1.current_index = s.current_index ∧
    (load_track fs i s).1.track_list = s.track_list ∧
    (load_track fs i s).1.paused = s.paused ∧
    (load_track fs i s).1.shuffle_on = s.shuffle_on := by
  unfold load_track
  dsimp only
  split_ifs <;> simp_all

/-- Witness for C4 (amended) at the environment `fsNone` and index 1 of
the three-track player `s3`. -/
theorem c4_load_failure_swallowed_witness :
    (load_track fsNone 1 s3).2 = none ∧
    (load_track fsNone 1 s3).1.current_index = s3.current_index ∧
    (load_track fsNone 1 s3).1.track_list = s3.track_list ∧
    (load_track fsNone 1 s3).1.paused = s3.paused ∧
    (load_track fsNone 1 s3).1.shuffle_on = s3.shuffle_on :=
  c4_load_failure_swallowed fsNone s3 1 (by decide) (by decide) (by decide)

/-- C5: `delete_track` on the sole remaining track (current, existing on
disk and removable) raises no exception and yields the empty state:
empty catalog, `current_index = 0`, `paused = true`. -/
theorem c5_delete_last_track (fs : FS) (s : PlayerState)
    (h1 : s.track_list.length = 1) (h0 : s.current_index = 0)
    (he : fs.fileExists ((s.track_list.getD 0 ⟨"", ""⟩).path) = true)
    (hr : fs.removeOk ((s.track_list.getD 0 ⟨"", ""⟩).path) = true) :
    (delete_track fs 0 s).2 = none ∧
    (delete_track fs 0 s).1.track_list = [] ∧
    (delete_track fs 0 s).1.current_index = 0 ∧
    (delete_track fs 0 s).1.paused = true := by
  obtain ⟨t, ht⟩ := List.length_eq_one.mp h1
  rw [ht] at he hr
  simp only [List.getD_cons_zero] at he hr
  simp [delete_track, ht, h0, he, hr]

/-- Witness for C5 on the one-track player `s1t`. -/
theorem c5_delete_last_track_witness :
    (delete_track fs0 0 s1t).2 = none ∧
    (delete_track fs0 0 s1t).1.track_list = [] ∧
    (delete_track fs0 0 s1t).1.current_index = 0 ∧
    (delete_track fs0 0 s1t).1.paused = true :=
  c5_delete_last_track fs0 s1t (by decide) (by decide) (by decide) (by decide)

/-- With shuffle off and a non-empty catalog, one `next` advances
`current_index` to `(current_index + 1) % len` and preserves the catalog
and the shuffle flag. -/
theorem next_seq_index (fs : FS) (r : Nat) (s : PlayerState)
    (hsh : s.shuffle_on = false) (hne : s.track_list ≠ []) :
    (next fs r s).1.current_index =
        (s.current_index + 1) % s.track_list.length ∧
    (next fs r s).1.track_list = s.track_list ∧
    (next fs r s).1.shuffle_on = false := by
  have hn : s.track_list.length ≠ 0 := fun hz => hne (List.length_eq_zero.mp hz)
  have hcond : ¬ (s.shuffle_on = true ∧ 1 < s.track_list.length) := by
    rintro ⟨hb, _⟩
    rw [hsh] at hb
    cases hb
  unfold next
  rw [if_neg hcond, if_neg hn]
  have h := loadAndStart_fields fs
      { s with current_index := (s.current_index + 1) % s.track_list.length }
  refine ⟨h.1, h.2.1, ?_⟩
  rw [h.2.2]
  exact hsh

/-- Iterating `next` `k` times with shuffle off adds `k` to the index
modulo the catalog length. -/
theorem nextN_props (fs : FS) :
    ∀ (k : Nat) (rs : Nat → Nat) (s : PlayerState),
      s.shuffle_on = false → s.track_list ≠ [] →
      s.current_index < s.track_list.length →
      (nextN fs rs k s).current_index =
          (s.current_index + k) % s.track_list.length ∧
      (nextN fs rs k s).track_list = s.track_list ∧
      (nextN fs rs k s).shuffle_on = false := by
  intro k
  induction k with
  | zero =>
    intro rs s hsh hne hlt
    exact ⟨by simp [nextN, Nat.mod_eq_of_lt hlt], rfl, hsh⟩
  | succ k ih =>
    intro rs s hsh hne hlt
    have hpos : 0 < s.track_list.length := List.length_pos.mpr hne
    have hstep := next_seq_index fs (rs 0) s hsh hne
    have hne' : (next fs (rs 0) s).1.track_list ≠ [] := by
      rw [hstep.2.1]; exact hne
    have hlt' : (next fs (rs 0) s).1.current_index <
        (next fs (rs 0) s).1.track_list.length := by
      rw [hstep.1, hstep.2.1]; exact Nat.mod_lt _ hpos
    have ihh := ih (fun i => rs (i + 1)) (next fs (rs 0) s).1 hstep.2.2 hne' hlt'
    refine ⟨?_, ?_, ?_⟩
    · show (nextN fs (fun i => rs (i + 1)) k (next fs (rs 0) s).1).current_index = _
      rw [ihh.1, hstep.2.1, hstep.1, Nat.mod_add_mod]
      congr 1
      omega
    · show (nextN fs (fun i => rs (i + 1)) k (next fs (rs 0) s).1).track_list = _
      rw [ihh.2.1, hstep.2.1]
    · exact ihh.2.2

/-- C6: with shuffle off, `next()` advances `current_index` to
`(current_index + 1) % len(catalog)`, and calling `next()` exactly
`len(catalog)` times returns `current_index` to its original value. -/
theorem c6_sequential_cycle (fs : FS) (rs : Nat → Nat) (s : PlayerState)
    (hsh : s.shuffle_on = false) (hne : s.track_list ≠ [])
    (hlt : s.current_index < s.track_list.length) :
    (next fs (rs 0) s).1.current_index =
        (s.current_index + 1) % s.track_list.length ∧
    (nextN fs rs s.track_list.length s).current_index = s.current_index := by
  refine ⟨(next_seq_index fs (rs 0) s hsh hne).1, ?_⟩
  rw [(nextN_props fs s.track_list.length rs s hsh hne hlt).1,
    Nat.add_mod_right, Nat.mod_eq_of_lt hlt]

/-- Witness for C6 on the three-track player `s3`. -/
theorem c6_sequential_cycle_witness :
    (next fs0 ((fun _ => 0) 0) s3).1.current_index =
        (s3.current_index + 1) % s3.track_list.length ∧
    (nextN fs0 (fun _ => 0) s3.track_list.length s3).current_index =
        s3.current_index :=
  c6_sequential_cycle fs0 (fun _ => 0) s3 rfl (by decide) (by decide)

/-- An element picked by `choice` from a non-empty list is in the list. -/
theorem choice_mem (r : Nat) (l : List Nat) (h : l ≠ []) : choice r l ∈ l := by
  have hl : 0 < l.length := List.length_pos.mpr h
  have hm : r % l.length < l.length := Nat.mod_lt _ hl
  unfold choice
  simp only [List.getD_eq_getElem?_getD, List.getElem?_eq_getElem hm,
    Option.getD_some]
  exact List.getElem_mem hm

/-- C7 (amended): with shuffle on and at least two tracks, a single
`next()` selects an index outside the last-five entries of `last_played`
whenever the candidate set is non-empty, and otherwise an index
different from `current_index`.  (The five-consecutive-calls version of
the claim fails, because `start_track` does not refresh the recency of
an index that is already somewhere in `last_played`.) -/
theorem c7_shuffle_avoids_recent_window (fs : FS) (r : Nat) (s : PlayerState)
    (hsh : s.shuffle_on = true) (hn : 1 < s.track_list.length) :
    (candidates s ≠ [] →
      (next fs r s).1.current_index ∉ window5 s.last_played) ∧
    (candidates s = [] →
      (next fs r s).1.current_index ≠ s.current_index) := by
  have hR : ((List.range s.track_list.length).filter
      (fun i => decide (i ≠ s.current_index))) ≠ [] := by
    intro hempty
    rcases Nat.lt_or_ge s.current_index 1 with hc | hc
    · have h1m : (1 : Nat) ∈ (List.range s.track_list.length).filter
          (fun i => decide (i ≠ s.current_index)) := by
        refine List.mem_filter.mpr ⟨List.mem_range.mpr hn, ?_⟩
        simp only [decide_eq_true_eq]
        omega
      rw [hempty] at h1m
      exact absurd h1m (List.not_mem_nil 1)
    · have h0m : (0 : Nat) ∈ (List.range s.track_list.length).filter
          (fun i => decide (i ≠ s.current_index)) := by
        refine List.mem_filter.mpr ⟨List.mem_range.mpr (by omega), ?_⟩
        simp only [decide_eq_true_eq]
        omega
      rw [hempty] at h0m
      exact absurd h0m (List.not_mem_nil 0)
  unfold next
  dsimp only
  split_ifs with h0 h1 h2
  · -- candidate set empty, fallback set also empty: impossible
    exact absurd (List.isEmpty_iff.mp h2) hR
  · -- candidate set empty, fallback to indices other than current_index
    rw [List.isEmpty_iff] at h1
    constructor
    · intro hne
      exact absurd h1 hne
    · intro _
      have hmem := choice_mem r _ hR
      have hdec := (List.mem_filter.mp hmem).2
      rw [(loadAndStart_fields fs _).1]
      exact of_decide_eq_true hdec
  · -- candidate set non-empty: the pick avoids the last-five window
    have hne : candidates s ≠ [] := by
      intro hc
      rw [hc] at h1
      exact h1 rfl
    constructor
    · intro _
      have hmem := choice_mem r _ hne
      have hdec := (List.mem_filter.mp hmem).2
      rw [(loadAndStart_fields fs _).1]
      exact of_decide_eq_true hdec
    · intro hc
      exact absurd hc hne
  · exact absurd ⟨hsh, hn⟩ h0
  · exact absurd ⟨hsh, hn⟩ h0

/-- Witness for C7 (amended) on the six-track shuffle player `s6`. -/
theorem c7_shuffle_avoids_recent_window_witness :
    (candidates s6 ≠ [] →
      (next fs0 0 s6).1.current_index ∉ window5 s6.last_played) ∧
    (candidates s6 = [] →
      (next fs0 0 s6).1.current_index ≠ s6.current_index) :=
  c7_shuffle_avoids_recent_window fs0 0 s6 (by decide) (by decide)

/-- Method `start_track` keeps the play history duplicate-free and within the
`max_history` bound: it appends `current_index` only when absent and
pops the oldest entry when the bound is exceeded. -/
theorem start_track_hist (s : PlayerState)
    (hnd : s.last_played.Nodup) (hlen : s.last_played.length ≤ max_history) :
    (start_track s).last_played.Nodup ∧
    (start_track s).last_played.length ≤ max_history := by
  unfold start_track
  dsimp only
  split_ifs with h1 h2
  · exact ⟨hnd, hlen⟩
  · have hnd' : (s.last_played ++ [s.current_index]).Nodup := by
      rw [List.nodup_append]
      refine ⟨hnd, List.nodup_singleton _, ?_⟩
      intro a ha hb
      rw [List.mem_singleton] at hb
      rw [hb] at ha
      exact h1 ha
    constructor
    · exact hnd'.sublist (List.tail_sublist _)
    · have := List.length_tail (s.last_played ++ [s.current_index])
      rw [this, List.length_append, List.length_singleton]
      unfold max_history at hlen ⊢
      omega
  · have hnd' : (s.last_played ++ [s.current_index]).Nodup := by
      rw [List.nodup_append]
      refine ⟨hnd, List.nodup_singleton _, ?_⟩
      intro a ha hb
      rw [List.mem_singleton] at hb
      rw [hb] at ha
      exact h1 ha
    refine ⟨hnd', ?_⟩
    exact Nat.le_of_not_lt h2

/-- The load-and-start pair keeps the play history duplicate-free and
bounded. -/
theorem loadAndStart_hist (fs : FS) (s : PlayerState)
    (hnd : s.last_played.Nodup) (hlen : s.last_played.length ≤ max_history) :
    (loadAndStart fs s).1.last_played.Nodup ∧
    (loadAndStart fs s).1.last_played.length ≤ max_history := by
  unfold loadAndStart
  have hf := (load_track_fields fs s.current_index s).2.2.2.2
  rcases h : load_track fs s.current_index s with ⟨s1, e⟩
  rw [h] at hf
  cases e
  · exact start_track_hist s1 (by rw [hf]; exact hnd) (by rw [hf]; exact hlen)
  · exact ⟨by rw [hf]; exact hnd, by rw [hf]; exact hlen⟩

/-- C10: every player operation keeps `last_played` duplicate-free and
of length at most `max_history` (10): only `start_track` touches the
history, and it appends `current_index` only when absent, popping the
oldest entry when the bound is exceeded. -/
theorem c10_history_nodup_bounded (fs : FS) (op : Op) (s : PlayerState)
    (hnd : s.last_played.Nodup) (hlen : s.last_played.length ≤ max_history) :
    (runOp fs op s).1.last_played.Nodup ∧
    (runOp fs op s).1.last_played.length ≤ max_history := by
  cases op with
  | play b =>
    simp only [runOp]
    unfold play
    dsimp only
    split_ifs with h1 h2
    · exact ⟨hnd, hlen⟩
    · exact loadAndStart_hist fs _ hnd hlen
    · exact loadAndStart_hist fs _ hnd hlen
  | pause =>
    simp only [runOp]
    unfold pause
    split_ifs <;> exact ⟨hnd, hlen⟩
  | next r =>
    simp only [runOp]
    unfold next
    dsimp only
    split_ifs <;>
      first
        | exact ⟨hnd, hlen⟩
        | exact loadAndStart_hist fs _ hnd hlen
  | back =>
    simp only [runOp]
    unfold back
    split_ifs <;>
      first
        | exact ⟨hnd, hlen⟩
        | exact loadAndStart_hist fs _ hnd hlen
  | play_track i =>
    exact loadAndStart_hist fs _ hnd hlen
  | toggle_shuffle =>
    exact ⟨hnd, hlen⟩
  | delete_track i =>
    simp only [runOp]
    unfold delete_track
    dsimp only
    split_ifs <;>
      first
        | exact ⟨hnd, hlen⟩
        | exact loadAndStart_hist fs _ hnd hlen
  | set_volume v =>
    exact ⟨hnd, hlen⟩

/-- Witness for C10 on `pause` applied to the three-track player `s3`. -/
theorem c10_history_nodup_bounded_witness :
    (runOp fs0 Op.pause s3).1.last_played.Nodup ∧
    (runOp fs0 Op.pause s3).1.last_played.length ≤ max_history :=
  c10_history_nodup_bounded fs0 Op.pause s3 (by decide) (by decide)
